import Mathlib

/-!
Verification development for the football-prediction API repository
(main_server_with_sync_endpoint.py, pattern_sync_server.py).

The Python code is shallowly embedded over exact arithmetic: Python floats
become rationals, Python ints become integers, dictionaries become
association lists, and fallible operations return Option/Except values.
Logging (print statements), file persistence (joblib/json dumps) and the
HTTP framework plumbing are out of scope; the embedded functions model the
data transformations and the in-memory state transitions of the handlers.
-/

namespace FootballApi

/-- A Python runtime value as it can appear in a JSON-decoded request body
(plus the values the handlers create).  Numeric strings, finite floats and
NaN are separated because float(v) and int(v) treat them differently:
pint carries a Python int, pbool a bool, pfloat a finite float value,
pnan the float NaN, pstr a string, pnone is None, pdict an object
(association list of string keys, unique keys as in a Python dict),
plist an array, and pother stands for any other object (for which both
float(v) and int(v) raise). -/
inductive PyVal where
  | pstr (s : String)
  | pint (n : ℤ)
  | pbool (b : Bool)
  | pfloat (q : ℚ)
  | pnan
  | pnone
  | pdict (entries : List (String × PyVal))
  | plist (l : List PyVal)
  | pother

/-- Whether a value is Python None (used by normalize_field's
value-is-not-None test). -/
def isPyNone : PyVal → Bool
  | .pnone => true
  | _ => false

/-- FEATURE_KEYS from the source: the 12 feature names, in declared order. -/
def FEATURE_KEYS : List String :=
  ["eloDiff", "ppgDiff", "homeOsl", "drawOsl", "awayOsl",
   "poissonHomeProb", "avgDrawPercent", "upsetScoreDiff",
   "xgHomeFor", "xgAwayFor", "xgHomeAgainst", "xgAwayAgainst"]

/-- FIELD_MAPPING["label"] from the source. -/
def FIELD_MAPPING_label : List String :=
  ["finalResult", "finalPrediction", "label", "finalPredClean",
   "prediction", "result", "outcome"]

/-- FIELD_MAPPING["features"] from the source. -/
def FIELD_MAPPING_features : List String :=
  ["features", "feature_dict", "feature", "featureDict", "data"]

/-- FIELD_MAPPING["warningRules"] from the source. -/
def FIELD_MAPPING_warningRules : List String :=
  ["warningRules", "warning_rules", "patterns", "pattern_rules", "missPatterns"]

/-- FIELD_MAPPING["successRules"] from the source. -/
def FIELD_MAPPING_successRules : List String :=
  ["successRules", "success_rules", "success", "successPatterns"]

/-- Characters of a string with leading and trailing whitespace removed,
the character-level content of Python str.strip (and of the strip the
int and float constructors apply to string arguments). -/
def stripChars (cs : List Char) : List Char :=
  ((cs.dropWhile Char.isWhitespace).reverse.dropWhile Char.isWhitespace).reverse

/-- ASCII lowercasing of one character; the label synonyms in scope are
ASCII words and Korean characters, on which Python str.lower and this
function agree. -/
def lowerChar (c : Char) : Char :=
  if 65 ≤ c.toNat ∧ c.toNat ≤ 90 then Char.ofNat (c.toNat + 32) else c

/-- Leading sign of a numeric literal: the sign factor and the remaining
characters. -/
def splitSign (cs : List Char) : ℤ × List Char :=
  match cs with
  | '-' :: rest => (-1, rest)
  | '+' :: rest => (1, rest)
  | _ => (1, cs)

/-- Value of a digit list read in base 10. -/
def digitsToNat (cs : List Char) : ℕ :=
  cs.foldl (fun acc c => acc * 10 + (c.toNat - 48)) 0

/-- Split a character list at every dot. -/
def splitDot (cs : List Char) : List (List Char) :=
  cs.foldr
    (fun c acc =>
      if c = '.' then [] :: acc
      else match acc with
        | h :: t => (c :: h) :: t
        | [] => [[c]])
    [[]]

/-- Python float(s) on a string: strip, optional sign, decimal digits with an
optional fractional part (at least one digit overall).  The exponent form,
underscore grouping and the inf/nan literals are not modelled; no request in
scope relies on them. -/
def pyFloatOfString? (s : String) : Option ℚ :=
  let (sgn, u) := splitSign (stripChars s.data)
  match splitDot u with
  | [ip] =>
      if ip ≠ [] ∧ ip.all Char.isDigit then
        some ((sgn : ℚ) * (digitsToNat ip : ℚ))
      else none
  | [ip, fp] =>
      if (ip ≠ [] ∨ fp ≠ []) ∧ ip.all Char.isDigit ∧ fp.all Char.isDigit then
        some ((sgn : ℚ) *
          ((digitsToNat ip : ℚ) + (digitsToNat fp : ℚ) / (10 : ℚ) ^ fp.length))
      else none
  | _ => none

/-- Outcome of Python float(v): a finite value, NaN, or an exception. -/
inductive FloatRes where
  | val (q : ℚ)
  | nan
  | err
deriving DecidableEq

/-- Python float(v) on each value shape: ints and bools convert, finite
floats pass through, NaN stays NaN, strings parse as numeric literals,
everything else raises. -/
def pyFloat : PyVal → FloatRes
  | .pstr s => match pyFloatOfString? s with
      | some q => .val q
      | none => .err
  | .pint n => .val (n : ℚ)
  | .pbool b => .val (if b then 1 else 0)
  | .pfloat q => .val q
  | .pnan => .nan
  | .pnone => .err
  | .pdict _ => .err
  | .plist _ => .err
  | .pother => .err

/-- The function _safe_num: try float(v), return the default on an exception
or when the result is NaN (the x == x test); the argument is the result of
dict.get, so a missing key arrives as None and float(None) raises. -/
def safeNum (v : Option PyVal) (default : ℚ) : ℚ :=
  match v with
  | none => default
  | some v' =>
      match pyFloat v' with
      | .val q => q
      | .nan => default
      | .err => default

/-- The function _vec_from_features: one safeNum entry per feature key, in
FEATURE_KEYS order, default 0.0. -/
def vecFromFeatures (feat : List (String × PyVal)) : List ℚ :=
  FEATURE_KEYS.map (fun k => safeNum (feat.lookup k) 0)

/-- The function normalize_field: walk the allowed keys in order and return
the first value that is present and not None; None when no key qualifies.
The fieldName argument is only used for logging in the source and is kept
for signature fidelity. -/
def normalizeField (data : List (String × PyVal)) (fieldName : String)
    (allowedKeys : List String) : Option PyVal :=
  match allowedKeys with
  | [] => none
  | k :: rest =>
      match data.lookup k with
      | some v => if isPyNone v then normalizeField data fieldName rest else some v
      | none => normalizeField data fieldName rest

/-- Truncation toward zero, the behaviour of Python int() on a float. -/
def ratTrunc (q : ℚ) : ℤ :=
  if 0 ≤ q then ⌊q⌋ else ⌈q⌉

/-- Python s.strip().lower() as applied to a label string. -/
def stripLower (s : String) : String :=
  ⟨(stripChars s.data).map lowerChar⟩

/-- Home-label synonyms from the source. -/
def homeSynonyms : List String := ["home", "h", "home win", "홈 승", "1"]

/-- Draw-label synonyms from the source. -/
def drawSynonyms : List String := ["draw", "d", "무승부", "x", "0"]

/-- Away-label synonyms from the source. -/
def awaySynonyms : List String := ["away", "a", "away win", "원정 승", "2"]

/-- The rejection reasons of the retrain-automated row loop; each constructor
corresponds to one key of the invalid_reason_counts dictionary. -/
inductive Reason where
  | not_dict
  | no_features
  | invalid_label
  | label_out_of_range
  | invalid_label_type
deriving DecidableEq

/-- The invalid_reason_counts dictionary, modelled with one counter per
possible key (the loop writes no other key). -/
structure ReasonCounts where
  notDict : ℕ
  noFeatures : ℕ
  invalidLabel : ℕ
  labelOutOfRange : ℕ
  invalidLabelType : ℕ
deriving DecidableEq

/-- The all-zero counter dictionary. -/
def ReasonCounts.zero : ReasonCounts := ⟨0, 0, 0, 0, 0⟩

/-- Increment the counter for one reason. -/
def ReasonCounts.bump (c : ReasonCounts) : Reason → ReasonCounts
  | .not_dict => { c with notDict := c.notDict + 1 }
  | .no_features => { c with noFeatures := c.noFeatures + 1 }
  | .invalid_label => { c with invalidLabel := c.invalidLabel + 1 }
  | .label_out_of_range => { c with labelOutOfRange := c.labelOutOfRange + 1 }
  | .invalid_label_type => { c with invalidLabelType := c.invalidLabelType + 1 }

/-- Sum of all counters, the total number of rejected rows. -/
def ReasonCounts.total (c : ReasonCounts) : ℕ :=
  c.notDict + c.noFeatures + c.invalidLabel + c.labelOutOfRange + c.invalidLabelType

/-- The membership test y not in (0, 1, 2) and its out-of-range rejection,
applied to the result of int(lab). -/
def checkLabelRange (n : ℤ) : Except Reason ℕ :=
  if n = 0 ∨ n = 1 ∨ n = 2 then .ok n.toNat else .error .label_out_of_range

/-- The label-parsing block of the retrain-automated row loop.  A string is
stripped, lowercased and matched against the three synonym tuples (unknown
strings are invalid_label).  Any other value goes through y = int(lab):
ints pass through, bools become 0 or 1, floats truncate toward zero, and
values for which int() raises (None — including an absent label —, NaN,
dicts, lists, other objects) are invalid_label_type; an in-range result is
then range-checked. -/
def parseLabel : Option PyVal → Except Reason ℕ
  | some (.pstr s) =>
      let t := stripLower s
      if homeSynonyms.contains t then .ok 0
      else if drawSynonyms.contains t then .ok 1
      else if awaySynonyms.contains t then .ok 2
      else .error .invalid_label
  | some (.pint n) => checkLabelRange n
  | some (.pbool b) => checkLabelRange (if b then 1 else 0)
  | some (.pfloat q) => checkLabelRange (ratTrunc q)
  | some .pnan => .error .invalid_label_type
  | some .pnone => .error .invalid_label_type
  | some (.pdict _) => .error .invalid_label_type
  | some (.plist _) => .error .invalid_label_type
  | some .pother => .error .invalid_label_type
  | none => .error .invalid_label_type

/-- Accumulated state of the retrain-automated row loop: X_list, y_list,
valid_count and invalid_reason_counts. -/
structure RowsResult where
  X : List (List ℚ)
  y : List ℕ
  valid : ℕ
  reasons : ReasonCounts

/-- One iteration of the row loop: reject non-dict rows, extract features
and label through normalize_field, reject rows without a features dict,
then parse the label; a fully valid row appends its vector and class and
counts as valid, every rejected row bumps exactly one reason counter. -/
def stepRow (acc : RowsResult) (row : PyVal) : RowsResult :=
  match row with
  | .pdict entries =>
      let feat := normalizeField entries "features" FIELD_MAPPING_features
      let lab := normalizeField entries "label" FIELD_MAPPING_label
      match feat with
      | some (.pdict fentries) =>
          let vec := vecFromFeatures fentries
          match parseLabel lab with
          | .ok y0 =>
              { acc with X := acc.X ++ [vec], y := acc.y ++ [y0],
                         valid := acc.valid + 1 }
          | .error r => { acc with reasons := acc.reasons.bump r }
      | _ => { acc with reasons := acc.reasons.bump .no_features }
  | _ => { acc with reasons := acc.reasons.bump .not_dict }

/-- The whole row loop of retrain-automated over the training batch. -/
def processRows (rows : List PyVal) : RowsResult :=
  rows.foldl stepRow ⟨[], [], 0, .zero⟩

/-- The number of distinct classes among the parsed labels; Counter keys in
the source, their count is what len(uniq) measures. -/
def distinctClasses (y : List ℕ) : ℕ :=
  y.dedup.length

/-- min(counts.values()): the smallest per-class sample count over the
classes that occur in y (0 for an empty batch, a case the caller has
already rejected). -/
def minClassCount (y : List ℕ) : ℕ :=
  match y.dedup.map (fun c => y.count c) with
  | [] => 0
  | h :: t => t.foldl min h

/-- The training mode chosen by retrain-automated: sigmoid calibration with
the given fold count, or the plain scaler plus logistic-regression
pipeline. -/
inductive TrainMode where
  | calibrated (cv : ℕ)
  | plainLogreg
deriving DecidableEq

/-- Rendering of the mode used in the version tag. -/
def TrainMode.tag : TrainMode → String
  | .calibrated _ => "calibrated"
  | .plainLogreg => "plain-logreg"

/-- The fitted estimator, kept symbolically: the mode it was built in and
the data it was fit on (the estimator internals are opaque library
state). -/
inductive ModelArtifact where
  | fitted (mode : TrainMode) (X : List (List ℚ)) (y : List ℕ)

/-- The module-level mutable state of the FastAPI server: the current model,
its version string, and the two pattern tables. -/
structure ServerState where
  model : Option ModelArtifact
  modelVersion : String
  patternsDb : List (String × PyVal)
  successDb : List (String × PyVal)

/-- The state at module load when no persisted model exists. -/
def initialState : ServerState :=
  { model := none, modelVersion := "demo-1.0", patternsDb := [], successDb := [] }

/-- The success response of retrain-automated.  The class_counts echo and
the saved flag (file persistence) are out of scope and omitted. -/
structure RetrainSummary where
  ok : Bool
  received : ℕ
  valid : ℕ
  invalid : ℕ
  reasons : ReasonCounts
  newModelVersion : String
  mode : TrainMode

/-- The retrain-automated handler as a state transition: run the row loop,
reject an empty or single-class batch with a 400 and untouched state, and
otherwise choose the training mode (calibration exactly when the minority
class has at least 2 samples and there are at least 6 samples, with 2 folds
when the minority class has exactly 2 samples and 3 otherwise), replace the
stored model and version, and report the batch summary.  The timestamp is
passed in since wall-clock time is outside the embedding. -/
def retrainAutomated (st : ServerState) (rows : List PyVal) (ts : String) :
    ServerState × Except (ℕ × String) RetrainSummary :=
  let r := processRows rows
  if r.X.isEmpty then
    (st, .error (400, "No valid samples"))
  else if distinctClasses r.y < 2 then
    (st, .error (400, "Need 2+ classes"))
  else
    let minc := minClassCount r.y
    let mode : TrainMode :=
      if 2 ≤ minc ∧ 6 ≤ r.y.length then
        .calibrated (if minc = 2 then 2 else 3)
      else .plainLogreg
    let ver := "sklr-" ++ mode.tag ++ "-" ++ ts
    ({ st with model := some (.fitted mode r.X r.y), modelVersion := ver },
     .ok { ok := true, received := r.X.length, valid := r.valid,
           invalid := rows.length - r.valid, reasons := r.reasons,
           newModelVersion := ver, mode := mode })

/-- The legacy retrain-models response. -/
structure RetrainModelsResp where
  ok : Bool
  received : ℕ

/-- The retrain-models handler: an echo that counts a list payload and
treats anything else as one item, touching no state. -/
def retrainModels (st : ServerState) (payload : PyVal) :
    ServerState × RetrainModelsResp :=
  (st, { ok := true,
         received := match payload with
           | .plist l => l.length
           | _ => 1 })

/-- The success response of the two sync endpoints.  The timestamp and the
empty-input warning string are omitted as out of scope. -/
structure SyncResp where
  ok : Bool
  storedPatterns : ℕ
deriving DecidableEq

/-- The sync-patterns-db handler: normalize the warningRules field, reject a
missing or non-dict value with a 400, answer an empty dict with a success
response of zero stored patterns while leaving the table untouched, and
replace the table wholesale otherwise.  The post-store log lines of the
source can raise for exotic pattern values and then turn the response into
a 500 after the table is already replaced; the response modelled here is
the non-raising path, and the state component is exact in all cases. -/
def syncPatternsDb (st : ServerState) (data : List (String × PyVal)) :
    ServerState × Except (ℕ × String) SyncResp :=
  match normalizeField data "warningRules" FIELD_MAPPING_warningRules with
  | none => (st, .error (400, "Missing warningRules in request body"))
  | some v =>
      match v with
      | .pdict entries =>
          if entries.isEmpty then
            (st, .ok { ok := true, storedPatterns := 0 })
          else
            ({ st with patternsDb := entries },
             .ok { ok := true, storedPatterns := entries.length })
      | _ => (st, .error (400, "warningRules must be a dictionary"))

/-- The sync-success-db handler, the successRules twin of syncPatternsDb. -/
def syncSuccessDb (st : ServerState) (data : List (String × PyVal)) :
    ServerState × Except (ℕ × String) SyncResp :=
  match normalizeField data "successRules" FIELD_MAPPING_successRules with
  | none => (st, .error (400, "Missing successRules in request body"))
  | some v =>
      match v with
      | .pdict entries =>
          if entries.isEmpty then
            (st, .ok { ok := true, storedPatterns := 0 })
          else
            ({ st with successDb := entries },
             .ok { ok := true, storedPatterns := entries.length })
      | _ => (st, .error (400, "successRules must be a dictionary"))

/-- The probability dictionary with keys home, draw, away. -/
structure ProbaDict where
  home : ℚ
  draw : ℚ
  away : ℚ
deriving DecidableEq

/-- Sum of the three entries of a probability dictionary. -/
def ProbaDict.sum (p : ProbaDict) : ℚ :=
  p.home + p.draw + p.away

/-- All three entries are non-negative. -/
def ProbaDict.nonneg (p : ProbaDict) : Prop :=
  0 ≤ p.home ∧ 0 ≤ p.draw ∧ 0 ≤ p.away

/-- The function _demo_proba: destructure the 12-entry vector (a vector of
any other length raises, hence the Option), form the three linear scores,
exponentiate and normalize by the sum.  math.exp is passed in as an
argument e; its one property used by the source is strict positivity on
every input, stated as a hypothesis where needed (exact real exponentiation
has no executable counterpart, and float overflow is outside the exact
embedding). -/
def demoProba (e : ℚ → ℚ) (vec : List ℚ) : Option ProbaDict :=
  match vec with
  | [eloDiff, ppgDiff, homeOsl, drawOsl, awayOsl, poissonHomeProb,
     avgDrawPercent, _upsetScoreDiff, xgHF, _xgAF, xgHA, _xgAA] =>
      let sh := 0.40 * poissonHomeProb + 0.20 * (eloDiff / 100) + 0.10 * ppgDiff
                + 0.15 * homeOsl - 0.10 * (xgHA - xgHF)
      let sd := 0.30 * (avgDrawPercent / 100) + 0.20 * drawOsl
                + 0.10 * (1 - |ppgDiff|)
      let sa := 0.35 * (1 - poissonHomeProb) + 0.20 * (-eloDiff / 100)
                + 0.10 * (-ppgDiff) + 0.15 * awayOsl
      let eh := e sh
      let ed := e sd
      let ea := e sa
      let s := eh + ed + ea
      some { home := eh / s, draw := ed / s, away := ea / s }
  | _ => none

/-- CLASS_TO_KEY.get: map a model class label to one of the three outcome
keys, None outside 0, 1, 2.  The key is rendered as the field-updating
position in a ProbaDict. -/
def classToKey (n : ℤ) : Option (ProbaDict → ℚ → ProbaDict) :=
  if n = 0 then some (fun o q => { o with home := q })
  else if n = 1 then some (fun o q => { o with draw := q })
  else if n = 2 then some (fun o q => { o with away := q })
  else none

/-- The assignment loop of _extract_proba_from_model: start from an all-zero
dictionary and write each probability whose class maps to a key. -/
def extractFill (pairs : List (ℤ × ℚ)) : ProbaDict :=
  pairs.foldl
    (fun o cp =>
      match classToKey cp.1 with
      | some setK => setK o cp.2
      | none => o)
    { home := 0, draw := 0, away := 0 }

/-- The function _extract_proba_from_model after the library calls: the
model's class list and probability row arrive as inputs (they come from the
opaque estimator, with the classes fallback chain still producing a list of
integer labels), are zipped and written into the dictionary, and the result
is renormalized by its sum when that is positive and replaced by the
uniform 1/3 dictionary otherwise. -/
def extractProba (classes : List ℤ) (probs : List ℚ) : ProbaDict :=
  let out := extractFill (classes.zip probs)
  let s := out.sum
  if 0 < s then
    { home := out.home / s, draw := out.draw / s, away := out.away / s }
  else
    { home := 1 / 3, draw := 1 / 3, away := 1 / 3 }

/-- Python int(s) on a string: strip, optional sign, one or more decimal
digits (underscore grouping not modelled); anything else raises. -/
def pyIntOfString? (s : String) : Option ℤ :=
  let (sgn, u) := splitSign (stripChars s.data)
  if u ≠ [] ∧ u.all Char.isDigit then
    some (sgn * (digitsToNat u : ℤ))
  else none

/-- Python list indexing l[n]: non-negative indices read from the front,
negative indices from the back, and anything out of range raises. -/
def pyIndex {α : Type} (l : List α) (n : ℤ) : Option α :=
  if 0 ≤ n then l.get? n.toNat
  else if -n ≤ (l.length : ℤ) then l.get? (l.length - (-n).toNat)
  else none

/-- The Flask get_pattern handler of pattern_sync_server.py with the loaded
pattern list as input: int(pattern_id) inside the try block (a parse
failure lands in the generic handler, status 500), the sole guard
int(pattern_id) < len(patterns) before indexing (its else branch is the
404), and Python indexing whose own IndexError also lands in the generic
handler.  The result is the HTTP status and the pattern payload if any. -/
def getPattern {α : Type} (patterns : List α) (patternId : String) :
    ℕ × Option α :=
  match pyIntOfString? patternId with
  | none => (500, none)
  | some n =>
      if n < (patterns.length : ℤ) then
        match pyIndex patterns n with
        | some p => (200, some p)
        | none => (500, none)
      else (404, none)

/-- A key counts as absent for normalize_field when it is missing from the
record or bound to None. -/
def fieldAbsent (data : List (String × PyVal)) (k : String) : Prop :=
  data.lookup k = none ∨ data.lookup k = some .pnone

/-- A concrete six-row retraining batch with classes 0 and 1, three samples
each, used to instantiate the calibration-choice theorem. -/
def calibBatch : List PyVal :=
  [.pdict [("features", .pdict []), ("label", .pint 0)],
   .pdict [("features", .pdict []), ("label", .pint 0)],
   .pdict [("features", .pdict []), ("label", .pint 0)],
   .pdict [("features", .pdict []), ("label", .pint 1)],
   .pdict [("features", .pdict []), ("label", .pint 1)],
   .pdict [("features", .pdict []), ("label", .pint 1)]]

/-- A concrete single-class retraining batch, used to instantiate the
rejection theorem. -/
def singleClassBatch : List PyVal :=
  [.pdict [("features", .pdict []), ("label", .pint 2)]]

/-! ## Helper lemmas about the row loop -/

theorem bump_total (c : ReasonCounts) (r : Reason) :
    (c.bump r).total = c.total + 1 := by
  cases r <;> simp [ReasonCounts.bump, ReasonCounts.total] <;> omega

theorem stepRow_shape (acc : RowsResult) (row : PyVal) :
    (∃ v y0, stepRow acc row =
      { X := acc.X ++ [v], y := acc.y ++ [y0], valid := acc.valid + 1,
        reasons := acc.reasons }) ∨
    (∃ r, stepRow acc row = { acc with reasons := acc.reasons.bump r }) := by
  rcases row with s | n | b | q | _ | _ | entries | l | _
  case pdict =>
    rcases hf : normalizeField entries "features" FIELD_MAPPING_features
      with _ | v
    · exact Or.inr ⟨.no_features, by simp [stepRow, hf]⟩
    · rcases v with s | n | b | q | _ | _ | fentries | l | _
      case pdict =>
        rcases hl : parseLabel (normalizeField entries "label" FIELD_MAPPING_label)
          with r | y0
        · exact Or.inr ⟨r, by simp [stepRow, hf, hl]⟩
        · exact Or.inl ⟨vecFromFeatures fentries, y0, by simp [stepRow, hf, hl]⟩
      all_goals exact Or.inr ⟨.no_features, by simp [stepRow, hf]⟩
  all_goals exact Or.inr ⟨.not_dict, rfl⟩

theorem foldl_counts (rows : List PyVal) : ∀ (acc : RowsResult),
    (rows.foldl stepRow acc).valid + (rows.foldl stepRow acc).reasons.total
        = acc.valid + acc.reasons.total + rows.length
    ∧ (rows.foldl stepRow acc).X.length + acc.valid
        = (rows.foldl stepRow acc).valid + acc.X.length
    ∧ (rows.foldl stepRow acc).y.length + acc.valid
        = (rows.foldl stepRow acc).valid + acc.y.length := by
  induction rows with
  | nil =>
      exact fun acc =>
        ⟨by rw [List.foldl_nil, List.length_nil]; omega, by rw [List.foldl_nil]; omega,
         by rw [List.foldl_nil]; omega⟩
  | cons row rest ih =>
      intro acc
      rcases stepRow_shape acc row with ⟨v, y0, hEq⟩ | ⟨r, hEq⟩
      · obtain ⟨h1, h2, h3⟩ := ih
          { X := acc.X ++ [v], y := acc.y ++ [y0], valid := acc.valid + 1,
            reasons := acc.reasons }
        simp only [List.foldl_cons, hEq]
        simp only [List.length_append, List.length_cons, List.length_nil]
          at h1 h2 h3 ⊢
        omega
      · obtain ⟨h1, h2, h3⟩ := ih { acc with reasons := acc.reasons.bump r }
        simp only [List.foldl_cons, hEq]
        simp only [bump_total, List.length_cons] at h1 h2 h3 ⊢
        omega

theorem processRows_counts (rows : List PyVal) :
    (processRows rows).X.length = (processRows rows).valid ∧
    (processRows rows).y.length = (processRows rows).valid ∧
    (processRows rows).valid + (processRows rows).reasons.total = rows.length := by
  obtain ⟨h1, h2, h3⟩ := foldl_counts rows ⟨[], [], 0, .zero⟩
  have hz : (ReasonCounts.zero).total = 0 := rfl
  unfold processRows
  simp only [List.length_nil] at h1 h2 h3
  refine ⟨by omega, by omega, ?_⟩
  rw [hz] at h1
  omega

/-! ## Claim theorems -/

/-- C3: for every retraining batch whose valid rows contain fewer than two
distinct label classes (including a batch with no valid rows at all),
retrain-automated fails with HTTP status 400 and the stored model state
(model reference, model version, and the rest of the server state) is
exactly what it was before the request. -/
theorem retrain_rejects_single_class (st : ServerState) (rows : List PyVal)
    (ts : String) (h : distinctClasses (processRows rows).y < 2) :
    (retrainAutomated st rows ts).1 = st ∧
    ∃ d, (retrainAutomated st rows ts).2 = Except.error (400, d) := by
  by_cases hX : (processRows rows).X.isEmpty
  · exact ⟨by simp [retrainAutomated, hX],
      ⟨"No valid samples", by simp [retrainAutomated, hX]⟩⟩
  · exact ⟨by simp [retrainAutomated, hX, h],
      ⟨"Need 2+ classes", by simp [retrainAutomated, hX, h]⟩⟩

/-- Witness: the single-class one-row batch is rejected with a 400 and the
initial state survives unchanged. -/
theorem retrain_rejects_single_class_witness :
    distinctClasses (processRows singleClassBatch).y < 2 ∧
    ((retrainAutomated initialState singleClassBatch "20240101_000000").1
        = initialState ∧
     ∃ d, (retrainAutomated initialState singleClassBatch "20240101_000000").2
        = Except.error (400, d)) :=
  ⟨by decide,
   retrain_rejects_single_class initialState singleClassBatch "20240101_000000"
     (by decide)⟩

/-- C2: for every accepted retraining batch (at least two distinct classes
among the valid rows), calibrated mode is chosen exactly when the minority
class has at least 2 samples and the batch has at least 6 valid samples in
total; in calibrated mode the fold count is 2 exactly when the minority
class has exactly 2 samples and 3 otherwise; in all other accepted cases
the plain scaler plus logistic-regression pipeline is trained. -/
theorem retrain_calibration_choice (st : ServerState) (rows : List PyVal)
    (ts : String) (h2 : 2 ≤ distinctClasses (processRows rows).y) :
    ∃ resp, (retrainAutomated st rows ts).2 = Except.ok resp ∧
      resp.mode =
        (if 2 ≤ minClassCount (processRows rows).y
            ∧ 6 ≤ (processRows rows).y.length
         then TrainMode.calibrated
           (if minClassCount (processRows rows).y = 2 then 2 else 3)
         else TrainMode.plainLogreg) := by
  have hXlen := (processRows_counts rows).1
  have hYlen := (processRows_counts rows).2.1
  have hX : (processRows rows).X.isEmpty = false := by
    rcases hE : (processRows rows).X with _ | ⟨v, rest⟩
    · exfalso
      rw [hE] at hXlen
      simp only [List.length_nil] at hXlen
      rw [← hXlen] at hYlen
      have hy : (processRows rows).y = [] := List.length_eq_zero.mp hYlen
      rw [hy] at h2
      simp [distinctClasses] at h2
    · simp
  have h2' : ¬(distinctClasses (processRows rows).y < 2) := by omega
  rcases hR : (retrainAutomated st rows ts).2 with e | resp
  case error =>
    simp [retrainAutomated, hX, h2'] at hR
  case ok =>
    refine ⟨resp, rfl, ?_⟩
    simp only [retrainAutomated, hX, h2'] at hR
    injection hR with hR
    rw [← hR]

/-- Witness: a six-row batch with three samples of each of two classes is
trained in calibrated mode with 3 folds. -/
theorem retrain_calibration_choice_witness :
    2 ≤ distinctClasses (processRows calibBatch).y ∧
    ∃ resp, (retrainAutomated initialState calibBatch "20240101_000000").2
        = Except.ok resp ∧
      resp.mode =
        (if 2 ≤ minClassCount (processRows calibBatch).y
            ∧ 6 ≤ (processRows calibBatch).y.length
         then TrainMode.calibrated
           (if minClassCount (processRows calibBatch).y = 2 then 2 else 3)
         else TrainMode.plainLogreg) :=
  ⟨by decide,
   retrain_calibration_choice initialState calibBatch "20240101_000000"
     (by decide)⟩

/-- C4: integer labels are valid exactly when they are 0, 1 or 2 (otherwise
label_out_of_range); strings are trimmed, case-folded and mapped through
the fixed synonym table to the class of the matching tuple, unknown strings
being invalid_label; values for which int() raises are invalid_label_type;
and over any batch, every row either becomes one training sample or
increments exactly one rejection counter, so the valid rows equal the
training set and valid plus rejected rows equal the batch size. -/
theorem label_parsing_table :
    (∀ n : ℤ, parseLabel (some (.pint n)) =
      if n = 0 ∨ n = 1 ∨ n = 2 then Except.ok n.toNat
      else Except.error Reason.label_out_of_range) ∧
    parseLabel (some (.pstr "Home Win")) = .ok 0 ∧
    parseLabel (some (.pstr " DRAW ")) = .ok 1 ∧
    parseLabel (some (.pstr "무승부")) = .ok 1 ∧
    parseLabel (some (.pstr "2")) = .ok 2 ∧
    parseLabel (some (.pint 1)) = .ok 1 ∧
    (∀ s, stripLower s ∈ homeSynonyms → parseLabel (some (.pstr s)) = .ok 0) ∧
    (∀ s, stripLower s ∈ drawSynonyms → parseLabel (some (.pstr s)) = .ok 1) ∧
    (∀ s, stripLower s ∈ awaySynonyms → parseLabel (some (.pstr s)) = .ok 2) ∧
    (∀ s, homeSynonyms.contains (stripLower s) = false →
      drawSynonyms.contains (stripLower s) = false →
      awaySynonyms.contains (stripLower s) = false →
      parseLabel (some (.pstr s)) = .error .invalid_label) ∧
    parseLabel none = .error .invalid_label_type ∧
    parseLabel (some .pnone) = .error .invalid_label_type ∧
    parseLabel (some .pnan) = .error .invalid_label_type ∧
    (∀ entries, parseLabel (some (.pdict entries)) = .error .invalid_label_type) ∧
    (∀ l, parseLabel (some (.plist l)) = .error .invalid_label_type) ∧
    (∀ rows, (processRows rows).X.length = (processRows rows).valid ∧
      (processRows rows).y.length = (processRows rows).valid ∧
      (processRows rows).valid + (processRows rows).reasons.total
        = rows.length) := by
  refine ⟨fun n => rfl, rfl, rfl, rfl, rfl, rfl, ?_, ?_, ?_, ?_,
    rfl, rfl, rfl, fun entries => rfl, fun l => rfl, processRows_counts⟩
  · intro s h
    simp only [homeSynonyms, List.mem_cons, List.not_mem_nil, or_false] at h
    rcases h with h | h | h | h | h <;> simp only [parseLabel] <;> rw [h] <;> rfl
  · intro s h
    simp only [drawSynonyms, List.mem_cons, List.not_mem_nil, or_false] at h
    rcases h with h | h | h | h | h <;> simp only [parseLabel] <;> rw [h] <;> rfl
  · intro s h
    simp only [awaySynonyms, List.mem_cons, List.not_mem_nil, or_false] at h
    rcases h with h | h | h | h | h <;> simp only [parseLabel] <;> rw [h] <;> rfl
  · intro s h1 h2 h3
    simp only [parseLabel]
    rw [h1, h2, h3]
    simp

/-- C5: for every feature mapping, the vectorizer returns a vector of
length exactly 12 whose i-th entry corresponds to the i-th declared feature
name; an entry whose key is missing, whose value float() cannot convert, or
whose value is NaN becomes 0.0, and every other entry is the numeric
coercion of the mapped value. -/
theorem vectorizer_fixed_order (feat : List (String × PyVal)) :
    (vecFromFeatures feat).length = 12 ∧
    ∀ i : Fin 12, (vecFromFeatures feat).get? (i : ℕ) =
      some (match feat.lookup (FEATURE_KEYS.getD (i : ℕ) "") with
        | none => 0
        | some v =>
            match pyFloat v with
            | .val q => q
            | .nan => 0
            | .err => 0) := by
  refine ⟨rfl, ?_⟩
  intro i
  fin_cases i <;> rfl

/-- C8: the legacy retrain-models endpoint is a no-op echo: the server state
(model, model version, pattern tables) is returned unchanged, and the
response reports ok with received equal to the length of a list payload and
1 for any other payload. -/
theorem retrain_models_noop (st : ServerState) (payload : PyVal) :
    (retrainModels st payload).1 = st ∧
    (retrainModels st payload).2.ok = true ∧
    (retrainModels st payload).2.received =
      (match payload with
        | .plist l => l.length
        | _ => 1) := by
  refine ⟨rfl, rfl, ?_⟩
  cases payload <;> rfl

/-- C9: non-string labels go through Python int coercion, so booleans are
accepted (False as class 0, True as class 1) and non-integral floats are
silently truncated toward zero (1.9 trains as class 1) instead of being
rejected as invalid_label_type; in general a float label is accepted
exactly when its truncation is 0, 1 or 2. -/
theorem label_int_coercion_quirks :
    parseLabel (some (.pbool false)) = .ok 0 ∧
    parseLabel (some (.pbool true)) = .ok 1 ∧
    parseLabel (some (.pfloat (19 / 10))) = .ok 1 ∧
    (∀ q : ℚ, parseLabel (some (.pfloat q)) =
      if ratTrunc q = 0 then .ok 0
      else if ratTrunc q = 1 then .ok 1
      else if ratTrunc q = 2 then .ok 2
      else .error .label_out_of_range) := by
  refine ⟨rfl, rfl, ?_, ?_⟩
  · show checkLabelRange (ratTrunc (19 / 10)) = .ok 1
    have h : ratTrunc (19 / 10 : ℚ) = 1 := by
      unfold ratTrunc
      rw [if_pos (by norm_num)]
      apply Int.floor_eq_iff.mpr
      norm_num
    rw [h]
    rfl
  · intro q
    show checkLabelRange (ratTrunc q) = _
    unfold checkLabelRange
    by_cases h0 : ratTrunc q = 0
    · simp [h0]
    · by_cases h1 : ratTrunc q = 1
      · simp [h1, h0]
      · by_cases h2 : ratTrunc q = 2
        · simp [h2, h0, h1]
        · simp [h0, h1, h2]

theorem isPyNone_true_iff (v : PyVal) : isPyNone v = true ↔ v = .pnone := by
  cases v <;> simp [isPyNone]

theorem normalizeField_cons_skip (data : List (String × PyVal))
    (fieldName k : String) (rest : List String) (habs : fieldAbsent data k) :
    normalizeField data fieldName (k :: rest)
      = normalizeField data fieldName rest := by
  rcases habs with h | h <;> simp [normalizeField, h, isPyNone]

/-- C7: for every record and priority-ordered candidate key list, the field
normalizer returns the value of the first candidate key present with a
non-null value (all earlier candidates being missing or null), and returns
the absent sentinel None exactly when every candidate key is missing or
bound to null. -/
theorem normalize_field_first_non_null (data : List (String × PyVal))
    (fieldName : String) (keys : List String) :
    (∀ v, normalizeField data fieldName keys = some v ↔
      ∃ l₁ k l₂, keys = l₁ ++ k :: l₂ ∧ data.lookup k = some v ∧
        isPyNone v = false ∧ ∀ k' ∈ l₁, fieldAbsent data k') ∧
    (normalizeField data fieldName keys = none ↔
      ∀ k ∈ keys, fieldAbsent data k) := by
  induction keys with
  | nil =>
      refine ⟨?_, by simp [normalizeField]⟩
      intro v
      constructor
      · intro h
        exact absurd h (by simp [normalizeField])
      · rintro ⟨l₁, k, l₂, hk, -, -, -⟩
        exact absurd hk (by simp)
  | cons k rest ih =>
      obtain ⟨ih1, ih2⟩ := ih
      have tri : fieldAbsent data k ∨
          ∃ v₀, data.lookup k = some v₀ ∧ isPyNone v₀ = false := by
        rcases h : data.lookup k with _ | v₀
        · exact Or.inl (Or.inl h)
        · by_cases hn : isPyNone v₀ = true
          · have hv0 := (isPyNone_true_iff v₀).mp hn
            subst hv0
            exact Or.inl (Or.inr h)
          · exact Or.inr ⟨v₀, by simp [h], by simpa using hn⟩
      rcases tri with habs | ⟨v₀, hk, hnf⟩
      · have he := normalizeField_cons_skip data fieldName k rest habs
        constructor
        · intro v
          rw [he, ih1 v]
          constructor
          · rintro ⟨l₁, kk, l₂, rfl, hv, hnn, hpre⟩
            refine ⟨k :: l₁, kk, l₂, rfl, hv, hnn, ?_⟩
            intro k' hk'
            rcases List.mem_cons.mp hk' with rfl | hk'
            · exact habs
            · exact hpre k' hk'
          · rintro ⟨l₁, kk, l₂, hsplit, hv, hnn, hpre⟩
            rcases l₁ with _ | ⟨k1, l₁'⟩
            · simp only [List.nil_append, List.cons.injEq] at hsplit
              obtain ⟨rfl, rfl⟩ := hsplit
              rcases habs with h | h
              · rw [h] at hv; exact absurd hv (by simp)
              · rw [h] at hv
                injection hv with hv
                rw [← hv] at hnn
                simp [isPyNone] at hnn
            · simp only [List.cons_append, List.cons.injEq] at hsplit
              obtain ⟨rfl, hrest⟩ := hsplit
              exact ⟨l₁', kk, l₂, hrest, hv, hnn,
                fun k' h => hpre k' (List.mem_cons_of_mem _ h)⟩
        · rw [he, ih2]
          constructor
          · intro hall k' hk'
            rcases List.mem_cons.mp hk' with rfl | hk'
            · exact habs
            · exact hall k' hk'
          · intro hall k' hk'
            exact hall k' (List.mem_cons_of_mem _ hk')
      · have he : normalizeField data fieldName (k :: rest) = some v₀ := by
          simp [normalizeField, hk, hnf]
        constructor
        · intro v
          rw [he]
          constructor
          · intro h
            injection h with h
            subst h
            exact ⟨[], k, rest, rfl, hk, hnf, by simp⟩
          · rintro ⟨l₁, kk, l₂, hsplit, hv, hnn, hpre⟩
            rcases l₁ with _ | ⟨k1, l₁'⟩
            · simp only [List.nil_append, List.cons.injEq] at hsplit
              obtain ⟨rfl, rfl⟩ := hsplit
              rw [hk] at hv
              injection hv with hv
              rw [hv]
            · simp only [List.cons_append, List.cons.injEq] at hsplit
              obtain ⟨rfl, -⟩ := hsplit
              rcases hpre k (List.mem_cons_self _ _) with h | h
              · rw [hk] at h; exact absurd h (by simp)
              · rw [hk] at h
                injection h with h
                rw [h] at hnf
                simp [isPyNone] at hnf
        · rw [he]
          constructor
          · intro h
            exact absurd h (by simp)
          · intro hall
            rcases hall k (List.mem_cons_self _ _) with h | h
            · rw [hk] at h; exact absurd h (by simp)
            · rw [hk] at h
              injection h with h
              rw [h] at hnf
              simp [isPyNone] at hnf

/-- C6: on both sync endpoints, a request whose normalized rules value is
the empty object yields a success response with zero stored patterns while
the previously stored table is left untouched; a non-empty object replaces
the stored table wholesale (no merge), leaving the rest of the server state
unchanged. -/
theorem sync_db_empty_vs_replace :
    (∀ st data,
      normalizeField data "warningRules" FIELD_MAPPING_warningRules
          = some (.pdict []) →
      syncPatternsDb st data = (st, .ok { ok := true, storedPatterns := 0 })) ∧
    (∀ st data entries, entries ≠ [] →
      normalizeField data "warningRules" FIELD_MAPPING_warningRules
          = some (.pdict entries) →
      (syncPatternsDb st data).1 = { st with patternsDb := entries }) ∧
    (∀ st data,
      normalizeField data "successRules" FIELD_MAPPING_successRules
          = some (.pdict []) →
      syncSuccessDb st data = (st, .ok { ok := true, storedPatterns := 0 })) ∧
    (∀ st data entries, entries ≠ [] →
      normalizeField data "successRules" FIELD_MAPPING_successRules
          = some (.pdict entries) →
      (syncSuccessDb st data).1 = { st with successDb := entries }) := by
  refine ⟨?_, ?_, ?_, ?_⟩
  · intro st data h
    simp [syncPatternsDb, h]
  · intro st data entries hne h
    have hE : entries.isEmpty = false := by
      cases entries
      · exact absurd rfl hne
      · rfl
    simp [syncPatternsDb, h, hE]
  · intro st data h
    simp [syncSuccessDb, h]
  · intro st data entries hne h
    have hE : entries.isEmpty = false := by
      cases entries
      · exact absurd rfl hne
      · rfl
    simp [syncSuccessDb, h, hE]

/-- C10: the Flask get_pattern route guards indexing only by
int(pattern_id) less than the list length, so a pattern_id parsing to a
negative integer whose absolute value is at most the list length returns
success (HTTP 200) with the element at that Python negative index instead
of a 404, and a pattern_id that int() cannot parse falls into the generic
exception handler and returns 500 instead of 404. -/
theorem get_pattern_negative_index :
    (∀ (patterns : List PyVal) (pid : String) (n : ℤ),
      pyIntOfString? pid = some n → n < 0 → n.natAbs ≤ patterns.length →
      getPattern patterns pid
          = (200, patterns.get? (patterns.length - n.natAbs)) ∧
      ∃ p, patterns.get? (patterns.length - n.natAbs) = some p) ∧
    (∀ (patterns : List PyVal) (pid : String),
      pyIntOfString? pid = none → getPattern patterns pid = (500, none)) := by
  constructor
  · intro patterns pid n hparse hneg hlen
    have hlt : n < (patterns.length : ℤ) := by omega
    have hidx : pyIndex patterns n
        = patterns.get? (patterns.length - n.natAbs) := by
      unfold pyIndex
      rw [if_neg (by omega), if_pos (by omega)]
      congr 1
      omega
    have hsome : ∃ p, patterns.get? (patterns.length - n.natAbs) = some p := by
      rcases hg : patterns.get? (patterns.length - n.natAbs) with _ | p
      · rw [List.get?_eq_none] at hg
        omega
      · exact ⟨p, rfl⟩
    obtain ⟨p, hp⟩ := hsome
    have hidx2 : pyIndex patterns n = some p := by rw [hidx]; exact hp
    refine ⟨?_, ⟨p, hp⟩⟩
    simp only [getPattern, hparse, hidx2]
    rw [if_pos hlt, hp]
  · intro patterns pid h
    simp [getPattern, h]

theorem normalized_triple_nonneg_sum (a b c : ℚ) (ha : 0 < a) (hb : 0 < b)
    (hc : 0 < c) :
    (ProbaDict.mk (a / (a + b + c)) (b / (a + b + c)) (c / (a + b + c))).nonneg ∧
    (ProbaDict.mk (a / (a + b + c)) (b / (a + b + c)) (c / (a + b + c))).sum
      = 1 := by
  have hs : 0 < a + b + c := by positivity
  refine ⟨⟨div_nonneg ha.le hs.le, div_nonneg hb.le hs.le,
    div_nonneg hc.le hs.le⟩, ?_⟩
  show a / (a + b + c) + b / (a + b + c) + c / (a + b + c) = 1
  rw [div_add_div_same, div_add_div_same, div_self hs.ne']

theorem extractFill_step_nonneg (n : ℤ) (q : ℚ) (o : ProbaDict)
    (ho : o.nonneg) (hq : 0 ≤ q) :
    (match classToKey n with
      | some setK => setK o q
      | none => o).nonneg := by
  obtain ⟨h1, h2, h3⟩ := ho
  unfold classToKey
  split_ifs
  · exact ⟨hq, h2, h3⟩
  · exact ⟨h1, hq, h3⟩
  · exact ⟨h1, h2, hq⟩
  · exact ⟨h1, h2, h3⟩

theorem extractFill_fold_nonneg : ∀ (pairs : List (ℤ × ℚ)) (o : ProbaDict),
    (∀ p ∈ pairs, 0 ≤ p.2) → o.nonneg →
    (pairs.foldl
      (fun o cp =>
        match classToKey cp.1 with
        | some setK => setK o cp.2
        | none => o) o).nonneg := by
  intro pairs
  induction pairs with
  | nil => intro o _ ho; simpa using ho
  | cons cp rest ih =>
      intro o h ho
      rw [List.foldl_cons]
      exact ih _ (fun p hp => h p (List.mem_cons_of_mem _ hp))
        (extractFill_step_nonneg cp.1 cp.2 o ho (h cp (List.mem_cons_self _ _)))

/-- C1: for every feature vector the probabilities of predict-proba are
non-negative and sum to 1 on both paths: the no-model heuristic path (for
any strictly positive exponential the three normalized exponentiated
scores), and the model-backed path, where the sum is 1 for every class
list and probability row (including the uniform one-third fallback when
the mapped sum is not positive) and the entries are non-negative whenever
the model probabilities are. -/
theorem predict_proba_normalized :
    (∀ (e : ℚ → ℚ), (∀ x, 0 < e x) → ∀ feat : List (String × PyVal),
      ∃ p, demoProba e (vecFromFeatures feat) = some p ∧
        p.nonneg ∧ p.sum = 1) ∧
    (∀ (classes : List ℤ) (probs : List ℚ),
      (extractProba classes probs).sum = 1) ∧
    (∀ (classes : List ℤ) (probs : List ℚ), (∀ q ∈ probs, 0 ≤ q) →
      (extractProba classes probs).nonneg) := by
  refine ⟨?_, ?_, ?_⟩
  · intro e he feat
    exact ⟨_, rfl, normalized_triple_nonneg_sum _ _ _ (he _) (he _) (he _)⟩
  · intro classes probs
    by_cases hs : 0 < (extractFill (classes.zip probs)).sum
    · simp only [extractProba]
      rw [if_pos hs]
      show (extractFill (classes.zip probs)).home
            / (extractFill (classes.zip probs)).sum
          + (extractFill (classes.zip probs)).draw
            / (extractFill (classes.zip probs)).sum
          + (extractFill (classes.zip probs)).away
            / (extractFill (classes.zip probs)).sum = 1
      rw [div_add_div_same, div_add_div_same]
      exact div_self hs.ne'
    · simp only [extractProba]
      rw [if_neg hs]
      show (1 / 3 : ℚ) + 1 / 3 + 1 / 3 = 1
      norm_num
  · intro classes probs hp
    have hfill : (extractFill (classes.zip probs)).nonneg :=
      extractFill_fold_nonneg _ ⟨0, 0, 0⟩
        (fun p hpz => hp p.2 (List.of_mem_zip hpz).2)
        ⟨le_rfl, le_rfl, le_rfl⟩
    by_cases hs : 0 < (extractFill (classes.zip probs)).sum
    · simp only [extractProba]
      rw [if_pos hs]
      exact ⟨div_nonneg hfill.1 hs.le, div_nonneg hfill.2.1 hs.le,
        div_nonneg hfill.2.2 hs.le⟩
    · simp only [extractProba]
      rw [if_neg hs]
      refine ⟨by norm_num, by norm_num, by norm_num⟩

end FootballApi
